import Mathlib

/-!
Shallow embedding of the bulk payment service (Go):
- internal/core/models.go  : Account, Transfer, BulkTransfer and their methods
- internal/core service    : Service.ProcessBulkTransfer
- sqlite adapter           : AccountStore (GetAccountByID, UpdateBalance,
                             AddTransfers with 100-row batches, Atomic)
- internal/http handler    : status mapping of PostTransfers

Go errors are modelled by an inductive `Err`; `errors.New` / `fmt.Errorf`
without wrapping become `Err.new`, `fmt.Errorf` with one `%w` becomes
`Err.wrap`, and with two `%w` verbs becomes `Err.wrap2`; `errors.Is`
becomes `errIs`.  The database is a pair of tables; every store
operation returns its result, the updated store and a log of the SQL
statements it executed, so that frame conditions ("no writes") are
statable.  Begin/commit/rollback failures of the driver are modelled by
an explicit fault environment `TxFaults`.  Machine `int64` arithmetic is
modelled by `Int`; no claim concerns the 2^63 boundary.
-/

/-- Go error values reachable in this program. -/
inductive Err where
  | accountNotFound
  | insufficientFunds
  | new (msg : String)
  | wrap (msg : String) (inner : Err)
  | wrap2 (msg : String) (first second : Err)
deriving DecidableEq, Repr

/-- Model of Go errors.Is: true when e equals target or wraps an error
that satisfies errIs (fmt.Errorf with two %w unwraps to both). -/
def errIs (e target : Err) : Bool :=
  (e = target) ||
  match e with
  | .wrap _ inner => errIs inner target
  | .wrap2 _ a b => errIs a target || errIs b target
  | _ => false

/-- internal/core/models.go Account. -/
structure Account where
  id : Int
  organizationName : String
  balanceCents : Int
  iban : String
  bic : String
deriving DecidableEq, Repr

/-- Account.HasSufficientFunds. -/
def Account.HasSufficientFunds (a : Account) (totalRequired : Int) : Bool :=
  a.balanceCents ≥ totalRequired

/-- Account.Debit: the Go method mutates the receiver and returns an
error; here it returns the error and the receiver after the call. -/
def Account.Debit (a : Account) (amount : Int) : Except Err Unit × Account :=
  if !(a.HasSufficientFunds amount) then (.error .insufficientFunds, a)
  else (.ok (), { a with balanceCents := a.balanceCents - amount })

/-- internal/core/models.go Transfer. -/
structure Transfer where
  id : Int
  bankAccountID : Int
  counterpartyName : String
  counterpartyIBAN : String
  counterpartyBIC : String
  amountCents : Int
  currency : String
  description : String
deriving DecidableEq, Repr

/-- internal/core/models.go BulkTransfer. -/
structure BulkTransfer where
  organizationBIC : String
  organizationIBAN : String
  transfers : List Transfer
deriving DecidableEq, Repr

/-- BulkTransfer.TotalAmount: folds + over the transfer amounts. -/
def BulkTransfer.TotalAmount (bt : BulkTransfer) : Int :=
  bt.transfers.foldl (fun total t => total + t.amountCents) 0

/-- One row of the sqlite transactions table, the columns inserted by
addTransfers. -/
structure TransferRow where
  counterpartyName : String
  counterpartyIBAN : String
  counterpartyBIC : String
  amountCents : Int
  currency : String
  bankAccountID : Int
  description : String
deriving DecidableEq, Repr

/-- The sqlite database: bank_accounts and transactions tables. -/
structure DB where
  accounts : List Account
  transactions : List TransferRow
deriving DecidableEq, Repr

/-- SQL statements a store operation can execute, for frame reasoning. -/
inductive Op where
  | beginTx
  | queryAccount (iban bic : String)
  | execUpdateBalance (balanceCents id : Int)
  | execInsert (rows : List TransferRow)
  | commit
  | rollback
deriving DecidableEq, Repr

/-- sqlite AccountStore: only the tx field matters to the scoped
operations; a store outside an Atomic scope has tx = none (Go nil). -/
structure AccountStore where
  tx : Option DB
deriving DecidableEq, Repr

/-- AccountStore.GetAccountByID: guarded by the nil-tx check, then
SELECT ... WHERE iban = ? AND bic = ?; no row gives ErrAccountNotFound. -/
def AccountStore.GetAccountByID (s : AccountStore) (iban bic : String) :
    Except Err Account × AccountStore × List Op :=
  match s.tx with
  | none => (.error (Err.new "GetAccountByID must be called within Atomic transaction"), s, [])
  | some db =>
    match db.accounts.find? (fun a => a.iban == iban && a.bic == bic) with
    | none => (.error Err.accountNotFound, s, [.queryAccount iban bic])
    | some account => (.ok account, s, [.queryAccount iban bic])

/-- AccountStore.UpdateBalance: guarded by the nil-tx check, then
UPDATE bank_accounts SET balance_cents = ? WHERE id = ?; zero affected
rows is an error. -/
def AccountStore.UpdateBalance (s : AccountStore) (account : Account) :
    Except Err Unit × AccountStore × List Op :=
  match s.tx with
  | none => (.error (Err.new "UpdateBalance must be called within Atomic transaction"), s, [])
  | some db =>
    let affected := db.accounts.countP (fun a => a.id == account.id)
    let db' : DB :=
      { db with accounts := db.accounts.map (fun a =>
          if a.id == account.id then { a with balanceCents := account.balanceCents } else a) }
    if affected = 0 then
      (.error (Err.new ("no rows updated for account ID " ++ toString account.id)),
       { tx := some db' }, [.execUpdateBalance account.balanceCents account.id])
    else
      (.ok (), { tx := some db' }, [.execUpdateBalance account.balanceCents account.id])

/-- The row written for one transfer by addTransfers: the adapter
negates the amount at this boundary. -/
def rowOf (t : Transfer) : TransferRow :=
  { counterpartyName := t.counterpartyName
    counterpartyIBAN := t.counterpartyIBAN
    counterpartyBIC := t.counterpartyBIC
    amountCents := -t.amountCents
    currency := t.currency
    bankAccountID := t.bankAccountID
    description := t.description }

/-- The argument-building loop of addTransfers: fails at the first
transfer with a zero bank_account_id, before anything is executed. -/
def buildInsertRows : List Transfer → Except Err (List TransferRow)
  | [] => .ok []
  | t :: rest =>
    if t.bankAccountID = 0 then .error (Err.new "transfer missing bank_account_id")
    else (buildInsertRows rest).map (fun rows => rowOf t :: rows)

/-- AccountStore.addTransfers (lower case in Go): one multi-row INSERT
for one batch. -/
def AccountStore.addTransfers (s : AccountStore) (transfers : List Transfer) :
    Except Err Unit × AccountStore × List Op :=
  match s.tx with
  | none => (.error (Err.new "AddTransfers must be called within Atomic transaction"), s, [])
  | some db =>
    match buildInsertRows transfers with
    | .error e => (.error e, s, [])
    | .ok rows =>
      (.ok (), { tx := some { db with transactions := db.transactions ++ rows } },
       [.execInsert rows])

/-- The batch size constant of AddTransfers. -/
def batchSize : Nat := 100

/-- The slices transfers[i:i+100] taken by the AddTransfers loop. -/
def chunk : List Transfer → List (List Transfer)
  | [] => []
  | t :: rest => (t :: rest).take batchSize :: chunk ((t :: rest).drop batchSize)
termination_by l => l.length
decreasing_by
  simp [batchSize]
  omega

/-- The loop body of AddTransfers: issue one insert per batch, stopping
at the first error. -/
def addTransfersLoop (s : AccountStore) : List (List Transfer) → Except Err Unit × AccountStore × List Op
  | [] => (.ok (), s, [])
  | batch :: rest =>
    match s.addTransfers batch with
    | (.error e, s', ops) => (.error e, s', ops)
    | (.ok _, s', ops) =>
      match addTransfersLoop s' rest with
      | (r, s2, ops2) => (r, s2, ops ++ ops2)

/-- AccountStore.AddTransfers: the nil-tx guard, then the batching loop
over chunks of at most 100 transfers. -/
def AccountStore.AddTransfers (s : AccountStore) (transfers : List Transfer) :
    Except Err Unit × AccountStore × List Op :=
  match s.tx with
  | none => (.error (Err.new "AddTransfers must be called within Atomic transaction"), s, [])
  | some _ => addTransfersLoop s (chunk transfers)

/-- Failures of the sql driver primitives during one Atomic call; none
means the primitive succeeds. -/
structure TxFaults where
  beginErr : Option Err
  commitErr : Option Err
  rollbackErr : Option Err
deriving DecidableEq, Repr

/-- AccountStore.Atomic: begins a transaction on the committed database,
runs the callback on a store bound to that transaction, commits on nil,
otherwise rolls back; a rollback failure is combined with the callback
error.  Returns the result, the committed database after the call and
the executed statements. -/
def AccountStore.Atomic (db : DB) (f : TxFaults)
    (cb : AccountStore → Except Err Unit × AccountStore × List Op) :
    Except Err Unit × DB × List Op :=
  match f.beginErr with
  | some e => (.error (Err.wrap "failed to begin transaction" e), db, [])
  | none =>
    match cb { tx := some db } with
    | (.error e, _, ops) =>
      match f.rollbackErr with
      | some rbErr =>
        (.error (Err.wrap2 "transaction error: %w, rollback error: %w" e rbErr), db,
         .beginTx :: ops ++ [.rollback])
      | none => (.error e, db, .beginTx :: ops ++ [.rollback])
    | (.ok _, s', ops) =>
      match f.commitErr with
      | some e => (.error (Err.wrap "failed to commit transaction" e), db,
                   .beginTx :: ops ++ [.commit])
      | none => (.ok (), s'.tx.getD db, .beginTx :: ops ++ [.commit])

/-- The transaction callback built by Service.ProcessBulkTransfer. -/
def transactionCallback (bt : BulkTransfer) (r : AccountStore) :
    Except Err Unit × AccountStore × List Op :=
  match r.GetAccountByID bt.organizationIBAN bt.organizationBIC with
  | (.error e, s, ops) => (.error e, s, ops)
  | (.ok account, s, ops1) =>
    match account.Debit bt.TotalAmount with
    | (.error e, _) => (.error e, s, ops1)
    | (.ok _, account') =>
      match s.UpdateBalance account' with
      | (.error e, s2, ops2) => (.error e, s2, ops1 ++ ops2)
      | (.ok _, s2, ops2) =>
        let transfers := bt.transfers.map (fun t => { t with bankAccountID := account'.id })
        match s2.AddTransfers transfers with
        | (r3, s3, ops3) => (r3, s3, ops1 ++ ops2 ++ ops3)

/-- Service.ProcessBulkTransfer: immediate success on an empty list,
otherwise one Atomic unit of work around the callback. -/
def Service.ProcessBulkTransfer (db : DB) (f : TxFaults) (bt : BulkTransfer) :
    Except Err Unit × DB × List Op :=
  if bt.transfers.length = 0 then (.ok (), db, [])
  else AccountStore.Atomic db f (transactionCallback bt)

/-- The HTTP status written by Handler.PostTransfers as a function of
the ProcessBulkTransfer result (after decoding and validation have
succeeded): errors.Is on the two sentinels, 500 otherwise, 201 on nil. -/
def PostTransfersStatus (result : Except Err Unit) : Nat :=
  match result with
  | .error e =>
    if errIs e Err.accountNotFound then 404
    else if errIs e Err.insufficientFunds then 422
    else 500
  | .ok _ => 201

/-- A list of bulk-transfer requests applied one after the other; each
step continues from the committed database of the previous one. -/
def processSeq (db : DB) : List (TxFaults × BulkTransfer) → DB
  | [] => db
  | step :: rest => processSeq (Service.ProcessBulkTransfer db step.1 step.2).2.1 rest

/-- Holds when every request in the sequence returns success. -/
def processSeqOk (db : DB) : List (TxFaults × BulkTransfer) → Bool
  | [] => true
  | step :: rest =>
    match Service.ProcessBulkTransfer db step.1 step.2 with
    | (.ok _, db', _) => processSeqOk db' rest
    | (.error _, _, _) => false

/-- Concrete account used by the witness theorems. -/
def sampleAccount : Account :=
  { id := 7, organizationName := "ACME", balanceCents := 1000000,
    iban := "FR7612345", bic := "BNPAFRPP" }

/-- Concrete transfer of a given amount used by the witness theorems. -/
def sampleTransfer (amt : Int) : Transfer :=
  { id := 0, bankAccountID := 0, counterpartyName := "Bip Bip",
    counterpartyIBAN := "EE38368", counterpartyBIC := "CRLYFRPP",
    amountCents := amt, currency := "EUR", description := "Wonderland" }

/-- Concrete single-account database used by the witness theorems. -/
def sampleDB : DB := { accounts := [sampleAccount], transactions := [] }

/-- Concrete bulk transfer against sampleAccount with the given amounts. -/
def sampleBulk (amts : List Int) : BulkTransfer :=
  { organizationBIC := "BNPAFRPP", organizationIBAN := "FR7612345",
    transfers := amts.map sampleTransfer }

/-- Fault environment in which every driver primitive succeeds. -/
def noFaults : TxFaults := { beginErr := none, commitErr := none, rollbackErr := none }

lemma foldl_amount_eq (l : List Transfer) (init : Int) :
    l.foldl (fun total t => total + t.amountCents) init
      = init + (l.map Transfer.amountCents).sum := by
  induction l generalizing init with
  | nil => simp
  | cons t rest ih => simp [List.foldl_cons, ih]; ring

lemma totalAmount_eq_sum (bt : BulkTransfer) :
    bt.TotalAmount = (bt.transfers.map Transfer.amountCents).sum := by
  simp [BulkTransfer.TotalAmount, foldl_amount_eq]

/-- C2: Debit fails with the InsufficientFunds error and leaves the
balance unchanged exactly when HasSufficientFunds is false, which is
exactly when balance < amount; otherwise it returns success and
decreases the balance by exactly amount. -/
theorem c2_debit_insufficient_iff (a : Account) (amount : Int) :
    ((a.Debit amount).1 = .error Err.insufficientFunds ∧ (a.Debit amount).2 = a
      ↔ a.HasSufficientFunds amount = false) ∧
    (a.HasSufficientFunds amount = false ↔ a.balanceCents < amount) ∧
    (a.HasSufficientFunds amount = true →
      (a.Debit amount).1 = .ok () ∧
      (a.Debit amount).2.balanceCents = a.balanceCents - amount) := by
  by_cases h : a.balanceCents < amount
  · have hs : a.HasSufficientFunds amount = false := by
      simp [Account.HasSufficientFunds]; omega
    refine ⟨?_, ?_, ?_⟩
    · simp [Account.Debit, hs]
    · simp [hs, h]
    · intro h2; rw [hs] at h2; exact absurd h2 (by simp)
  · have hs : a.HasSufficientFunds amount = true := by
      simp [Account.HasSufficientFunds]; omega
    refine ⟨?_, ?_, ?_⟩
    · simp [Account.Debit, hs]
    · simp [hs, h]
    · intro _; simp [Account.Debit, hs]

/-- Witness for C2 at a concrete account and amount. -/
theorem c2_debit_insufficient_iff_witness :
    Account.HasSufficientFunds sampleAccount 3 = true ∧
    (Account.Debit sampleAccount 3).1 = .ok () ∧
    (Account.Debit sampleAccount 3).2.balanceCents = sampleAccount.balanceCents - 3 :=
  ⟨by decide, (c2_debit_insufficient_iff sampleAccount 3).2.2 (by decide)⟩

/-- C4: ProcessBulkTransfer on an empty transfer list returns success,
leaves the committed database unchanged and executes no statement at
all (no transaction is begun, nothing is read, updated or inserted). -/
theorem c4_empty_bulk_noop (db : DB) (f : TxFaults) (bt : BulkTransfer)
    (h : bt.transfers = []) :
    Service.ProcessBulkTransfer db f bt = (.ok (), db, []) ∧
    ∀ op : Op, op ∉ (Service.ProcessBulkTransfer db f bt).2.2 := by
  refine ⟨by simp [Service.ProcessBulkTransfer, h], ?_⟩
  intro op
  simp [Service.ProcessBulkTransfer, h]

/-- Witness for C4 at a concrete database and empty bulk transfer. -/
theorem c4_empty_bulk_noop_witness :
    Service.ProcessBulkTransfer sampleDB noFaults (sampleBulk []) = (.ok (), sampleDB, []) :=
  (c4_empty_bulk_noop sampleDB noFaults (sampleBulk []) rfl).1

/-- C7: each scoped store operation called with no open transaction
returns an error, leaves the store unchanged, executes no statement,
and the error differs from both domain sentinels. -/
theorem c7_scoped_ops_require_tx (s : AccountStore) (iban bic : String)
    (account : Account) (transfers : List Transfer) (h : s.tx = none) :
    (∃ e1, s.GetAccountByID iban bic = (.error e1, s, []) ∧
       e1 ≠ Err.accountNotFound ∧ e1 ≠ Err.insufficientFunds) ∧
    (∃ e2, s.UpdateBalance account = (.error e2, s, []) ∧
       e2 ≠ Err.accountNotFound ∧ e2 ≠ Err.insufficientFunds) ∧
    (∃ e3, s.AddTransfers transfers = (.error e3, s, []) ∧
       e3 ≠ Err.accountNotFound ∧ e3 ≠ Err.insufficientFunds) := by
  obtain ⟨tx⟩ := s
  cases h
  refine ⟨⟨_, rfl, by simp, by simp⟩, ⟨_, rfl, by simp, by simp⟩, ⟨_, rfl, by simp, by simp⟩⟩

/-- Witness for C7 at a concrete unscoped store. -/
theorem c7_scoped_ops_require_tx_witness :
    ∃ e1, AccountStore.GetAccountByID { tx := none } "FR7612345" "BNPAFRPP"
        = (.error e1, { tx := none }, []) ∧
      e1 ≠ Err.accountNotFound ∧ e1 ≠ Err.insufficientFunds :=
  (c7_scoped_ops_require_tx { tx := none } "FR7612345" "BNPAFRPP" sampleAccount [] rfl).1

/-- C8: TotalAmount is 0 on an empty list, equals the arithmetic sum of
the transfer amounts, and is invariant under permutation of the list. -/
theorem c8_totalAmount_sum_perm :
    (∀ bt : BulkTransfer, bt.transfers = [] → bt.TotalAmount = 0) ∧
    (∀ bt : BulkTransfer, bt.TotalAmount = (bt.transfers.map Transfer.amountCents).sum) ∧
    (∀ bt bt' : BulkTransfer, bt.transfers.Perm bt'.transfers →
       bt.TotalAmount = bt'.TotalAmount) := by
  refine ⟨?_, ?_, ?_⟩
  · intro bt h; simp [BulkTransfer.TotalAmount, h]
  · intro bt; exact totalAmount_eq_sum bt
  · intro bt bt' hperm
    rw [totalAmount_eq_sum, totalAmount_eq_sum]
    exact (hperm.map Transfer.amountCents).sum_eq

/-- Witness for C8: two concrete lists that are permutations of each
other have the same total. -/
theorem c8_totalAmount_sum_perm_witness :
    (sampleBulk [10050, 25075]).TotalAmount = (sampleBulk [25075, 10050]).TotalAmount :=
  c8_totalAmount_sum_perm.2.2 (sampleBulk [10050, 25075]) (sampleBulk [25075, 10050])
    (List.Perm.swap (sampleTransfer 25075) (sampleTransfer 10050) [])

/-- C9: the handler maps a nil ProcessBulkTransfer result to 201; an
error that is (in the errors.Is sense) the AccountNotFound sentinel to
404; one that is the InsufficientFunds sentinel to 422; and every other
error to 500. -/
theorem c9_postTransfers_status :
    PostTransfersStatus (.ok ()) = 201 ∧
    PostTransfersStatus (.error Err.accountNotFound) = 404 ∧
    PostTransfersStatus (.error Err.insufficientFunds) = 422 ∧
    (∀ e, errIs e Err.accountNotFound = true → PostTransfersStatus (.error e) = 404) ∧
    (∀ e, errIs e Err.accountNotFound = false → errIs e Err.insufficientFunds = true →
       PostTransfersStatus (.error e) = 422) ∧
    (∀ e, errIs e Err.accountNotFound = false → errIs e Err.insufficientFunds = false →
       PostTransfersStatus (.error e) = 500) := by
  refine ⟨rfl, by decide, by decide, ?_, ?_, ?_⟩
  · intro e h; simp [PostTransfersStatus, h]
  · intro e h h2; simp [PostTransfersStatus, h, h2]
  · intro e h h2; simp [PostTransfersStatus, h, h2]

/-- Witness for C9 at a concrete wrapped sentinel error. -/
theorem c9_postTransfers_status_witness :
    PostTransfersStatus (.error (Err.wrap "failed to commit transaction" Err.accountNotFound)) = 404 :=
  c9_postTransfers_status.2.2.2.1 (Err.wrap "failed to commit transaction" Err.accountNotFound)
    (by decide)

/-- C10: with a non-negative balance and a strictly negative amount,
Debit succeeds and increases the balance by the amount's magnitude. -/
theorem c10_negative_amount_credits (a : Account) (amount : Int)
    (hb : 0 ≤ a.balanceCents) (hneg : amount < 0) :
    (a.Debit amount).1 = .ok () ∧
    (a.Debit amount).2.balanceCents = a.balanceCents + (-amount) := by
  have hs : a.HasSufficientFunds amount = true := by
    simp [Account.HasSufficientFunds]; omega
  refine ⟨by simp [Account.Debit, hs], ?_⟩
  simp [Account.Debit, hs]
  ring

/-- Witness for C10 at a concrete account and a negative amount. -/
theorem c10_negative_amount_credits_witness :
    0 ≤ sampleAccount.balanceCents ∧ (-5 : Int) < 0 ∧
    (Account.Debit sampleAccount (-5)).1 = .ok () ∧
    (Account.Debit sampleAccount (-5)).2.balanceCents = sampleAccount.balanceCents + 5 :=
  ⟨by decide, by decide, c10_negative_amount_credits sampleAccount (-5) (by decide) (by decide)⟩

/-- C3: with a working driver (begin and commit do not fault), Atomic
returns nil exactly when the callback does, in which case it commits
the callback's transaction view; on a callback error it rolls back,
leaves the committed database unchanged and returns the error
unchanged, except that a rollback failure is reported by an error
combining the callback error and the rollback error. -/
theorem c3_atomic_commit_rollback (db : DB) (f : TxFaults)
    (cb : AccountStore → Except Err Unit × AccountStore × List Op)
    (hb : f.beginErr = none) (hc : f.commitErr = none) :
    ((AccountStore.Atomic db f cb).1 = .ok () ↔ (cb { tx := some db }).1 = .ok ()) ∧
    ((cb { tx := some db }).1 = .ok () →
       Op.commit ∈ (AccountStore.Atomic db f cb).2.2 ∧
       (AccountStore.Atomic db f cb).2.1 = (cb { tx := some db }).2.1.tx.getD db) ∧
    (∀ e, (cb { tx := some db }).1 = .error e →
       Op.rollback ∈ (AccountStore.Atomic db f cb).2.2 ∧
       (AccountStore.Atomic db f cb).2.1 = db ∧
       (f.rollbackErr = none → (AccountStore.Atomic db f cb).1 = .error e) ∧
       (∀ rbErr, f.rollbackErr = some rbErr →
          (AccountStore.Atomic db f cb).1
            = .error (Err.wrap2 "transaction error: %w, rollback error: %w" e rbErr))) := by
  rcases hcb : cb { tx := some db } with ⟨r, s', ops⟩
  cases r with
  | ok u =>
    refine ⟨?_, ?_, ?_⟩
    · simp [AccountStore.Atomic, hb, hc, hcb]
    · intro _
      simp [AccountStore.Atomic, hb, hc, hcb]
    · intro e he
      simp at he
  | error e0 =>
    refine ⟨?_, ?_, ?_⟩
    · cases hrb : f.rollbackErr <;> simp [AccountStore.Atomic, hb, hc, hcb, hrb]
    · intro hok
      simp at hok
    · intro e he
      simp at he
      cases he
      cases hrb : f.rollbackErr <;>
        simp [AccountStore.Atomic, hb, hc, hcb, hrb]

/-- Witness for C3 at a concrete database and callback. -/
theorem c3_atomic_commit_rollback_witness :
    (AccountStore.Atomic sampleDB noFaults (fun s => (.ok (), s, []))).1 = .ok () :=
  (c3_atomic_commit_rollback sampleDB noFaults (fun s => (.ok (), s, [])) rfl rfl).1.mpr rfl

lemma chunk_mem_length_le (l : List Transfer) :
    ∀ b ∈ chunk l, b.length ≤ batchSize := by
  induction l using chunk.induct with
  | case1 => intro b hb; simp [chunk] at hb
  | case2 t rest ih =>
    intro b hb
    rw [chunk] at hb
    rcases List.mem_cons.mp hb with h | h
    · subst h
      exact List.length_take_le batchSize (t :: rest)
    · exact ih b h

lemma chunk_flatten (l : List Transfer) : (chunk l).flatten = l := by
  induction l using chunk.induct with
  | case1 => simp [chunk]
  | case2 t rest ih =>
    rw [chunk, List.flatten_cons, ih, List.take_append_drop]

lemma buildInsertRows_ok (l : List Transfer) (h : ∀ t ∈ l, t.bankAccountID ≠ 0) :
    buildInsertRows l = .ok (l.map rowOf) := by
  induction l with
  | nil => simp [buildInsertRows]
  | cons t rest ih =>
    have ht : t.bankAccountID ≠ 0 := h t (by simp)
    rw [buildInsertRows, if_neg ht, ih (fun u hu => h u (by simp [hu]))]
    simp [Except.map]

lemma buildInsertRows_err (l : List Transfer) (h : ∃ t ∈ l, t.bankAccountID = 0) :
    ∃ e, buildInsertRows l = .error e := by
  induction l with
  | nil => simp at h
  | cons t rest ih =>
    by_cases ht : t.bankAccountID = 0
    · exact ⟨_, by rw [buildInsertRows, if_pos ht]⟩
    · have hrest : ∃ u ∈ rest, u.bankAccountID = 0 := by
        rcases h with ⟨u, hu, hu0⟩
        rcases List.mem_cons.mp hu with rfl | hmem
        · exact absurd hu0 ht
        · exact ⟨u, hmem, hu0⟩
      rcases ih hrest with ⟨e, he⟩
      exact ⟨e, by rw [buildInsertRows, if_neg ht, he]; rfl⟩

lemma addTransfersLoop_ok (batches : List (List Transfer)) (d : DB)
    (h : ∀ b ∈ batches, ∀ t ∈ b, t.bankAccountID ≠ 0) :
    addTransfersLoop { tx := some d } batches =
      (.ok (), { tx := some { d with transactions := d.transactions ++ batches.flatten.map rowOf } },
       batches.map (fun b => Op.execInsert (b.map rowOf))) := by
  induction batches generalizing d with
  | nil => simp [addTransfersLoop]
  | cons b rest ih =>
    have hb : buildInsertRows b = .ok (b.map rowOf) :=
      buildInsertRows_ok b (h b (by simp))
    rw [addTransfersLoop]
    simp only [AccountStore.addTransfers, hb]
    rw [ih _ (fun b' hb' => h b' (by simp [hb']))]
    simp [List.append_assoc]

lemma addTransfersLoop_err (batches : List (List Transfer)) (d : DB)
    (h : ∃ b ∈ batches, ∃ t ∈ b, t.bankAccountID = 0) :
    ∃ e, (addTransfersLoop { tx := some d } batches).1 = .error e := by
  induction batches generalizing d with
  | nil => simp at h
  | cons b rest ih =>
    by_cases hzero : ∃ t ∈ b, t.bankAccountID = 0
    · rcases buildInsertRows_err b hzero with ⟨e, he⟩
      refine ⟨e, ?_⟩
      rw [addTransfersLoop]
      simp [AccountStore.addTransfers, he]
    · have hb : buildInsertRows b = .ok (b.map rowOf) :=
        buildInsertRows_ok b (by push_neg at hzero; exact hzero)
      have hrest : ∃ b' ∈ rest, ∃ t ∈ b', t.bankAccountID = 0 := by
        rcases h with ⟨b', hb', ht⟩
        rcases List.mem_cons.mp hb' with rfl | hmem
        · exact absurd ht hzero
        · exact ⟨b', hmem, ht⟩
      rcases ih hrest (d := { d with transactions := d.transactions ++ b.map rowOf }) with ⟨e, he⟩
      refine ⟨e, ?_⟩
      rw [addTransfersLoop]
      simp only [AccountStore.addTransfers, hb]
      rcases hloop : addTransfersLoop
          { tx := some { d with transactions := d.transactions ++ b.map rowOf } } rest
        with ⟨r2, s2, ops2⟩
      rw [hloop] at he
      simp [hloop]
      exact he

/-- C6: AddTransfers splits the input into consecutive batches of at
most 100 transfers whose concatenation is the input, issues exactly one
multi-row insert per batch in input order when every transfer carries a
non-zero account identifier, and fails with an error when some transfer
has a zero account identifier. -/
theorem c6_addTransfers_batching (s : AccountStore) (db : DB) (transfers : List Transfer)
    (h : s.tx = some db) :
    (∀ b ∈ chunk transfers, b.length ≤ 100) ∧
    (chunk transfers).flatten = transfers ∧
    ((∀ t ∈ transfers, t.bankAccountID ≠ 0) →
       s.AddTransfers transfers =
         (.ok (), { tx := some { db with transactions := db.transactions ++ transfers.map rowOf } },
          (chunk transfers).map (fun b => Op.execInsert (b.map rowOf)))) ∧
    ((∃ t ∈ transfers, t.bankAccountID = 0) →
       ∃ e, (s.AddTransfers transfers).1 = .error e) := by
  obtain ⟨tx⟩ := s
  cases h
  refine ⟨chunk_mem_length_le transfers, chunk_flatten transfers, ?_, ?_⟩
  · intro hz
    have hAll : ∀ b ∈ chunk transfers, ∀ t ∈ b, t.bankAccountID ≠ 0 := by
      intro b hb t ht
      exact hz t ((chunk_flatten transfers) ▸ List.mem_flatten.mpr ⟨b, hb, ht⟩)
    have := addTransfersLoop_ok (chunk transfers) db hAll
    rw [AccountStore.AddTransfers]
    simpa [chunk_flatten transfers] using this
  · intro hz
    have hEx : ∃ b ∈ chunk transfers, ∃ t ∈ b, t.bankAccountID = 0 := by
      rcases hz with ⟨t, ht, ht0⟩
      rcases List.mem_flatten.mp ((chunk_flatten transfers) ▸ ht) with ⟨b, hb, htb⟩
      exact ⟨b, hb, t, htb, ht0⟩
    rcases addTransfersLoop_err (chunk transfers) db hEx with ⟨e, he⟩
    exact ⟨e, by rw [AccountStore.AddTransfers]; exact he⟩

/-- Witness for C6 at a concrete scoped store and transfer list. -/
theorem c6_addTransfers_batching_witness :
    AccountStore.AddTransfers { tx := some sampleDB } [{ sampleTransfer 10050 with bankAccountID := 7 }]
      = (.ok (),
         { tx := some { sampleDB with transactions :=
             sampleDB.transactions ++ [{ sampleTransfer 10050 with bankAccountID := 7 }].map rowOf } },
         (chunk [{ sampleTransfer 10050 with bankAccountID := 7 }]).map
           (fun b => Op.execInsert (b.map rowOf))) :=
  (c6_addTransfers_batching { tx := some sampleDB } sampleDB
      [{ sampleTransfer 10050 with bankAccountID := 7 }] rfl).2.2.1 (by decide)

lemma sum_map_neg_int (l : List Int) : (l.map (fun x => -x)).sum = -l.sum := by
  induction l with
  | nil => simp
  | cons x rest ih => simp [ih]; ring

lemma atomic_ok_elim (db : DB) (f : TxFaults)
    (cb : AccountStore → Except Err Unit × AccountStore × List Op)
    (hok : (AccountStore.Atomic db f cb).1 = .ok ()) :
    f.beginErr = none ∧ f.commitErr = none ∧ (cb { tx := some db }).1 = .ok () ∧
    (AccountStore.Atomic db f cb).2.1 = (cb { tx := some db }).2.1.tx.getD db := by
  cases hb : f.beginErr with
  | some e => simp [AccountStore.Atomic, hb] at hok
  | none =>
    rcases hcb : cb { tx := some db } with ⟨r, s', ops⟩
    cases r with
    | error e =>
      cases hrb : f.rollbackErr <;> simp [AccountStore.Atomic, hb, hcb, hrb] at hok
    | ok u =>
      cases hc : f.commitErr with
      | some e => simp [AccountStore.Atomic, hb, hcb, hc] at hok
      | none => exact ⟨rfl, rfl, by simp [hcb], by simp [AccountStore.Atomic, hb, hcb, hc]⟩

lemma atomic_err_db (db : DB) (f : TxFaults)
    (cb : AccountStore → Except Err Unit × AccountStore × List Op) (e : Err)
    (he : (AccountStore.Atomic db f cb).1 = .error e) :
    (AccountStore.Atomic db f cb).2.1 = db := by
  cases hb : f.beginErr with
  | some e0 => simp [AccountStore.Atomic, hb]
  | none =>
    rcases hcb : cb { tx := some db } with ⟨r, s', ops⟩
    cases r with
    | error e0 =>
      cases hrb : f.rollbackErr <;> simp [AccountStore.Atomic, hb, hcb, hrb]
    | ok u =>
      cases hc : f.commitErr with
      | some e0 => simp [AccountStore.Atomic, hb, hcb, hc]
      | none => simp [AccountStore.Atomic, hb, hcb, hc] at he


lemma addTransfers_ok (s : AccountStore) (d : DB) (transfers : List Transfer)
    (h : s.tx = some d) (hnz : ∀ t ∈ transfers, t.bankAccountID ≠ 0) :
    s.AddTransfers transfers =
      (.ok (), { tx := some { d with transactions := d.transactions ++ transfers.map rowOf } },
       (chunk transfers).map (fun b => Op.execInsert (b.map rowOf))) := by
  obtain ⟨tx⟩ := s
  cases h
  have hAll : ∀ b ∈ chunk transfers, ∀ t ∈ b, t.bankAccountID ≠ 0 := by
    intro b hb t ht
    exact hnz t ((chunk_flatten transfers) ▸ List.mem_flatten.mpr ⟨b, hb, ht⟩)
  have := addTransfersLoop_ok (chunk transfers) d hAll
  rw [AccountStore.AddTransfers]
  rw [chunk_flatten transfers] at this
  exact this

lemma addTransfers_err (s : AccountStore) (d : DB) (transfers : List Transfer)
    (h : s.tx = some d) (hz : ∃ t ∈ transfers, t.bankAccountID = 0) :
    ∃ e, (s.AddTransfers transfers).1 = .error e := by
  obtain ⟨tx⟩ := s
  cases h
  have hEx : ∃ b ∈ chunk transfers, ∃ t ∈ b, t.bankAccountID = 0 := by
    rcases hz with ⟨t, ht, ht0⟩
    rcases List.mem_flatten.mp ((chunk_flatten transfers) ▸ ht) with ⟨b, hb, htb⟩
    exact ⟨b, hb, t, htb, ht0⟩
  rcases addTransfersLoop_err (chunk transfers) d hEx with ⟨e, he⟩
  exact ⟨e, by rw [AccountStore.AddTransfers]; exact he⟩

lemma transactionCallback_ok_elim (bt : BulkTransfer) (db : DB)
    (hne : bt.transfers ≠ [])
    (hok : (transactionCallback bt { tx := some db }).1 = .ok ()) :
    ∃ acct,
      db.accounts.find? (fun a => a.iban == bt.organizationIBAN && a.bic == bt.organizationBIC)
        = some acct ∧
      acct.HasSufficientFunds bt.TotalAmount = true ∧
      acct.id ≠ 0 ∧
      (transactionCallback bt { tx := some db }).2.1 =
        { tx := some (
          { accounts := db.accounts.map (fun a =>
              if a.id == acct.id
              then { a with balanceCents := acct.balanceCents - bt.TotalAmount } else a),
             transactions := db.transactions
              ++ bt.transfers.map (fun t => rowOf { t with bankAccountID := acct.id }) } : DB) } := by
  cases hfind : db.accounts.find?
      (fun a => a.iban == bt.organizationIBAN && a.bic == bt.organizationBIC) with
  | none =>
    simp [transactionCallback, AccountStore.GetAccountByID, hfind] at hok
  | some acct =>
    have hget : AccountStore.GetAccountByID { tx := some db } bt.organizationIBAN bt.organizationBIC
        = (.ok acct, { tx := some db }, [.queryAccount bt.organizationIBAN bt.organizationBIC]) := by
      simp [AccountStore.GetAccountByID, hfind]
    cases hsuff : acct.HasSufficientFunds bt.TotalAmount with
    | false =>
      have hdeb : acct.Debit bt.TotalAmount = (.error Err.insufficientFunds, acct) := by
        simp [Account.Debit, hsuff]
      simp [transactionCallback, hget, hdeb] at hok
    | true =>
      have hdeb : acct.Debit bt.TotalAmount
          = (.ok (), { acct with balanceCents := acct.balanceCents - bt.TotalAmount }) := by
        simp [Account.Debit, hsuff]
      have hmem : acct ∈ db.accounts := List.mem_of_find?_eq_some hfind
      have hcount : ¬ db.accounts.countP (fun a => a.id == acct.id) = 0 := by
        have : 0 < db.accounts.countP (fun a => a.id == acct.id) :=
          List.countP_pos_iff.mpr ⟨acct, hmem, by simp⟩
        omega
      have hupd : AccountStore.UpdateBalance { tx := some db }
            { acct with balanceCents := acct.balanceCents - bt.TotalAmount }
          = (.ok (),
             { tx := some (
               { db with accounts := db.accounts.map (fun a =>
                   if a.id == acct.id
                   then { a with balanceCents := acct.balanceCents - bt.TotalAmount } else a) } : DB) },
             [.execUpdateBalance (acct.balanceCents - bt.TotalAmount) acct.id]) := by
        simp [AccountStore.UpdateBalance, hcount]
      by_cases hid : acct.id = 0
      · have hz : ∃ t ∈ bt.transfers.map (fun t => { t with bankAccountID := acct.id }),
            t.bankAccountID = 0 := by
          rcases List.exists_mem_of_ne_nil bt.transfers hne with ⟨t0, ht0⟩
          exact ⟨{ t0 with bankAccountID := acct.id }, List.mem_map_of_mem _ ht0, hid⟩
        rcases addTransfers_err _ _ _ rfl hz with ⟨e, he⟩
        rcases hA : AccountStore.AddTransfers
            { tx := some (
              { db with accounts := db.accounts.map (fun a =>
                  if a.id == acct.id
                  then { a with balanceCents := acct.balanceCents - bt.TotalAmount } else a) } : DB) }
            (bt.transfers.map (fun t => { t with bankAccountID := acct.id }))
          with ⟨r3, s3, ops3⟩
        rw [hA] at he
        simp at he
        subst he
        simp only [transactionCallback, hget, hdeb, hupd, hA] at hok
        simp at hok
      · have hnz : ∀ t ∈ bt.transfers.map (fun t => { t with bankAccountID := acct.id }),
            t.bankAccountID ≠ 0 := by
          intro t ht
          rcases List.mem_map.mp ht with ⟨u, _, rfl⟩
          exact hid
        have hA := addTransfers_ok
          { tx := some (
            { db with accounts := db.accounts.map (fun a =>
                if a.id == acct.id
                then { a with balanceCents := acct.balanceCents - bt.TotalAmount } else a) } : DB) }
          _ (bt.transfers.map (fun t => { t with bankAccountID := acct.id })) rfl hnz
        refine ⟨acct, rfl, hsuff, hid, ?_⟩
        simp only [transactionCallback, hget, hdeb, hupd, hA]
        simp [List.map_map, Function.comp]

lemma process_ok_elim (db : DB) (f : TxFaults) (bt : BulkTransfer)
    (hne : bt.transfers ≠ [])
    (hok : (Service.ProcessBulkTransfer db f bt).1 = .ok ()) :
    ∃ acct,
      db.accounts.find? (fun a => a.iban == bt.organizationIBAN && a.bic == bt.organizationBIC)
        = some acct ∧
      acct.HasSufficientFunds bt.TotalAmount = true ∧
      acct.id ≠ 0 ∧
      (Service.ProcessBulkTransfer db f bt).2.1 =
        { accounts := db.accounts.map (fun a =>
            if a.id == acct.id
            then { a with balanceCents := acct.balanceCents - bt.TotalAmount } else a),
          transactions := db.transactions
            ++ bt.transfers.map (fun t => rowOf { t with bankAccountID := acct.id }) } := by
  have hlen : ¬ bt.transfers.length = 0 := by
    intro h
    exact hne (List.eq_nil_of_length_eq_zero h)
  rw [Service.ProcessBulkTransfer, if_neg hlen] at hok
  obtain ⟨hb, hc, hcbok, hdb⟩ := atomic_ok_elim db f (transactionCallback bt) hok
  obtain ⟨acct, hfind, hsuff, hid, hstore⟩ := transactionCallback_ok_elim bt db hne hcbok
  refine ⟨acct, hfind, hsuff, hid, ?_⟩
  rw [Service.ProcessBulkTransfer, if_neg hlen, hdb, hstore]
  rfl

/-- C1: a successful non-empty bulk transfer with positive amounts
writes back the balance read minus the sum of the transfer amounts,
appends one row per transfer storing the negated amount, and the sum of
the appended amounts is the negated sum of the input amounts. -/
theorem c1_conservation (db : DB) (f : TxFaults) (bt : BulkTransfer)
    (hne : bt.transfers ≠ []) (_hpos : ∀ t ∈ bt.transfers, 0 < t.amountCents)
    (hok : (Service.ProcessBulkTransfer db f bt).1 = .ok ()) :
    ∃ acct,
      db.accounts.find? (fun a => a.iban == bt.organizationIBAN && a.bic == bt.organizationBIC)
        = some acct ∧
      (∀ a ∈ (Service.ProcessBulkTransfer db f bt).2.1.accounts, a.id = acct.id →
         a.balanceCents = acct.balanceCents - bt.TotalAmount) ∧
      (∃ a ∈ (Service.ProcessBulkTransfer db f bt).2.1.accounts, a.id = acct.id) ∧
      (Service.ProcessBulkTransfer db f bt).2.1.transactions =
        db.transactions ++ bt.transfers.map (fun t => rowOf { t with bankAccountID := acct.id }) ∧
      (∀ t ∈ bt.transfers, (rowOf { t with bankAccountID := acct.id }).amountCents
         = -t.amountCents) ∧
      ((bt.transfers.map (fun t => rowOf { t with bankAccountID := acct.id })).map
          TransferRow.amountCents).sum = -bt.TotalAmount := by
  obtain ⟨acct, hfind, hsuff, hid, hdb⟩ := process_ok_elim db f bt hne hok
  refine ⟨acct, hfind, ?_, ?_, ?_, ?_, ?_⟩
  · intro a ha haid
    rw [hdb] at ha
    rcases List.mem_map.mp ha with ⟨orig, horig, rfl⟩
    by_cases heq : orig.id = acct.id
    · simp [heq]
    · rw [if_neg (by simp [heq])] at haid ⊢
      exact absurd haid heq
  · refine ⟨{ acct with balanceCents := acct.balanceCents - bt.TotalAmount }, ?_, rfl⟩
    rw [hdb]
    have : ({ acct with balanceCents := acct.balanceCents - bt.TotalAmount } : Account)
        = if acct.id == acct.id
          then { acct with balanceCents := acct.balanceCents - bt.TotalAmount } else acct := by
      simp
    rw [this]
    exact List.mem_map_of_mem _ (List.mem_of_find?_eq_some hfind)
  · rw [hdb]
  · intro t _
    rfl
  · rw [List.map_map]
    have : (TransferRow.amountCents ∘ fun t => rowOf { t with bankAccountID := acct.id })
        = fun t : Transfer => -t.amountCents := rfl
    rw [this]
    have hneg : (fun t : Transfer => -t.amountCents)
        = (fun x : Int => -x) ∘ Transfer.amountCents := rfl
    rw [hneg, ← List.map_map, sum_map_neg_int, totalAmount_eq_sum]


lemma process_ok_intro (db : DB) (bt : BulkTransfer) (acct : Account)
    (hne : ¬ bt.transfers.length = 0)
    (hfind : db.accounts.find?
        (fun a => a.iban == bt.organizationIBAN && a.bic == bt.organizationBIC) = some acct)
    (hsuff : acct.HasSufficientFunds bt.TotalAmount = true)
    (hid : acct.id ≠ 0) :
    (Service.ProcessBulkTransfer db noFaults bt).1 = .ok () := by
  have hget : AccountStore.GetAccountByID { tx := some db } bt.organizationIBAN bt.organizationBIC
      = (.ok acct, { tx := some db }, [.queryAccount bt.organizationIBAN bt.organizationBIC]) := by
    simp [AccountStore.GetAccountByID, hfind]
  have hdeb : acct.Debit bt.TotalAmount
      = (.ok (), { acct with balanceCents := acct.balanceCents - bt.TotalAmount }) := by
    simp [Account.Debit, hsuff]
  have hcount : ¬ db.accounts.countP (fun a => a.id == acct.id) = 0 := by
    have hpos : 0 < db.accounts.countP (fun a => a.id == acct.id) :=
      List.countP_pos_iff.mpr ⟨acct, List.mem_of_find?_eq_some hfind, by simp⟩
    omega
  have hupd : AccountStore.UpdateBalance { tx := some db }
        { acct with balanceCents := acct.balanceCents - bt.TotalAmount }
      = (.ok (),
         { tx := some (
           { db with accounts := db.accounts.map (fun a =>
               if a.id == acct.id
               then { a with balanceCents := acct.balanceCents - bt.TotalAmount } else a) } : DB) },
         [.execUpdateBalance (acct.balanceCents - bt.TotalAmount) acct.id]) := by
    simp [AccountStore.UpdateBalance, hcount]
  have hnz : ∀ t ∈ bt.transfers.map (fun t => { t with bankAccountID := acct.id }),
      t.bankAccountID ≠ 0 := by
    intro t ht
    rcases List.mem_map.mp ht with ⟨u, _, rfl⟩
    exact hid
  have hA := addTransfers_ok
      { tx := some (
        { db with accounts := db.accounts.map (fun a =>
            if a.id == acct.id
            then { a with balanceCents := acct.balanceCents - bt.TotalAmount } else a) } : DB) }
      _ (bt.transfers.map (fun t => { t with bankAccountID := acct.id })) rfl hnz
  rw [Service.ProcessBulkTransfer, if_neg hne]
  simp only [AccountStore.Atomic, noFaults, transactionCallback, hget, hdeb, hupd, hA]

/-- Witness for C1 at the spec's concrete scenario: balance 1000000,
amounts 10050, 25075, 7525. -/
theorem c1_conservation_witness :
    ∃ acct,
      sampleDB.accounts.find? (fun a =>
          a.iban == (sampleBulk [10050, 25075, 7525]).organizationIBAN &&
          a.bic == (sampleBulk [10050, 25075, 7525]).organizationBIC) = some acct ∧
      (∀ a ∈ (Service.ProcessBulkTransfer sampleDB noFaults
                (sampleBulk [10050, 25075, 7525])).2.1.accounts, a.id = acct.id →
         a.balanceCents = acct.balanceCents - (sampleBulk [10050, 25075, 7525]).TotalAmount) ∧
      (∃ a ∈ (Service.ProcessBulkTransfer sampleDB noFaults
                (sampleBulk [10050, 25075, 7525])).2.1.accounts, a.id = acct.id) ∧
      (Service.ProcessBulkTransfer sampleDB noFaults
          (sampleBulk [10050, 25075, 7525])).2.1.transactions =
        sampleDB.transactions ++ (sampleBulk [10050, 25075, 7525]).transfers.map
          (fun t => rowOf { t with bankAccountID := acct.id }) ∧
      (∀ t ∈ (sampleBulk [10050, 25075, 7525]).transfers,
         (rowOf { t with bankAccountID := acct.id }).amountCents = -t.amountCents) ∧
      (((sampleBulk [10050, 25075, 7525]).transfers.map
          (fun t => rowOf { t with bankAccountID := acct.id })).map
            TransferRow.amountCents).sum = -(sampleBulk [10050, 25075, 7525]).TotalAmount :=
  c1_conservation sampleDB noFaults (sampleBulk [10050, 25075, 7525])
    (by decide) (by decide)
    (process_ok_intro sampleDB (sampleBulk [10050, 25075, 7525]) sampleAccount
      (by decide) (by decide) (by decide) (by decide))

lemma process_err_db (db : DB) (f : TxFaults) (bt : BulkTransfer) (e : Err)
    (he : (Service.ProcessBulkTransfer db f bt).1 = .error e) :
    (Service.ProcessBulkTransfer db f bt).2.1 = db := by
  by_cases hlen : bt.transfers.length = 0
  · simp [Service.ProcessBulkTransfer, hlen]
  · rw [Service.ProcessBulkTransfer, if_neg hlen] at he ⊢
    exact atomic_err_db db f _ e he

lemma process_preserves_nonneg (db : DB) (f : TxFaults) (bt : BulkTransfer)
    (h : ∀ a ∈ db.accounts, 0 ≤ a.balanceCents) :
    ∀ a ∈ (Service.ProcessBulkTransfer db f bt).2.1.accounts, 0 ≤ a.balanceCents := by
  cases hres : (Service.ProcessBulkTransfer db f bt).1 with
  | error e =>
    rw [process_err_db db f bt e hres]
    exact h
  | ok u =>
    cases u
    by_cases hlen : bt.transfers.length = 0
    · have hdb : (Service.ProcessBulkTransfer db f bt).2.1 = db := by
        simp [Service.ProcessBulkTransfer, hlen]
      rw [hdb]
      exact h
    · have hne : bt.transfers ≠ [] := by
        intro hc
        exact hlen (by simp [hc])
      obtain ⟨acct, hfind, hsuff, hid, hdb⟩ := process_ok_elim db f bt hne hres
      rw [hdb]
      intro a ha
      rcases List.mem_map.mp ha with ⟨orig, horig, rfl⟩
      have hsum : acct.balanceCents ≥ bt.TotalAmount := by
        simpa [Account.HasSufficientFunds] using hsuff
      by_cases heq : orig.id = acct.id
      · rw [if_pos (by simp [heq])]
        simp
        omega
      · rw [if_neg (by simp [heq])]
        exact h orig horig

/-- C5: a successful Debit of a non-negative amount from a non-negative
balance leaves a non-negative balance, and any sequence of successful
ProcessBulkTransfer calls starting from a database whose balances are
all non-negative commits only non-negative balances. -/
theorem c5_no_negative_committed_balance :
    (∀ (a : Account) (amount : Int), 0 ≤ a.balanceCents → 0 ≤ amount →
       (a.Debit amount).1 = .ok () → 0 ≤ (a.Debit amount).2.balanceCents) ∧
    (∀ (db : DB) (steps : List (TxFaults × BulkTransfer)),
       (∀ a ∈ db.accounts, 0 ≤ a.balanceCents) → processSeqOk db steps = true →
       ∀ a ∈ (processSeq db steps).accounts, 0 ≤ a.balanceCents) := by
  constructor
  · intro a amount _hb _hamt hok
    cases hs : a.HasSufficientFunds amount with
    | false => simp [Account.Debit, hs] at hok
    | true =>
      have hge : a.balanceCents ≥ amount := by
        simpa [Account.HasSufficientFunds] using hs
      simp [Account.Debit, hs]
      omega
  · intro db steps
    induction steps generalizing db with
    | nil =>
      intro h _
      exact h
    | cons step rest ih =>
      intro h hok
      rw [processSeqOk] at hok
      rcases hres : Service.ProcessBulkTransfer db step.1 step.2 with ⟨r, dbNext, ops⟩
      rw [hres] at hok
      cases r with
      | error e => simp at hok
      | ok u =>
        have hstep : ∀ a ∈ dbNext.accounts, 0 ≤ a.balanceCents := by
          have hp := process_preserves_nonneg db step.1 step.2 h
          rw [hres] at hp
          exact hp
        have hseq : processSeq db (step :: rest) = processSeq dbNext rest := by
          rw [processSeq, hres]
        rw [hseq]
        exact ih dbNext hstep hok

/-- Witness for C5 at a concrete account, amount, database and sequence. -/
theorem c5_no_negative_committed_balance_witness :
    (0 ≤ (Account.Debit sampleAccount 3).2.balanceCents) ∧
    (∀ a ∈ (processSeq sampleDB [(noFaults, sampleBulk [10050])]).accounts,
       0 ≤ a.balanceCents) :=
  ⟨c5_no_negative_committed_balance.1 sampleAccount 3 (by decide) (by decide) (by rfl),
   c5_no_negative_committed_balance.2 sampleDB [(noFaults, sampleBulk [10050])]
     (by decide)
     (by
       have h1 : (Service.ProcessBulkTransfer sampleDB noFaults (sampleBulk [10050])).1 = .ok () :=
         process_ok_intro sampleDB (sampleBulk [10050]) sampleAccount
           (by decide) (by decide) (by decide) (by decide)
       rw [processSeqOk]
       rcases hres : Service.ProcessBulkTransfer sampleDB noFaults (sampleBulk [10050])
         with ⟨r, d, o⟩
       rw [hres] at h1
       simp at h1
       subst h1
       rfl)⟩
